import Mathlib

/-!
Verification of the restaurant-inspections dashboard (src/app.py) against its
specification. The embedding models, faithfully to the source:

* the password digest (hashlib.sha256(pw.encode()).hexdigest(), app.py lines
  31-32) as a full SHA-256 over the UTF-8 bytes of the password, on Nat bytes
  and 32-bit words reduced mod 2^32;
* the credentials table (SQLite table users, username TEXT PRIMARY KEY) as a
  list of (username, stored hash) pairs in insertion order;
* check_credentials (lines 34-36) and the Create-account handler of
  signup_page (lines 47-55);
* the per-rerun session logic (lines 72-96): session-state initialisation,
  the authentication guard with st.stop(), the login handler and the Log Out
  button;
* the Create / Update / Delete action blocks (lines 134-191) over a generic
  value type: a table read by SELECT * is a column list plus rows in storage
  order, the primary key is by convention the first column (line 138), and
  each block both builds a parameterized SQL statement and transforms the
  rows as executing that statement against SQLite would.
-/

namespace InspectionsApp

set_option maxRecDepth 8000

/-! ## SHA-256 (hashlib.sha256(...).hexdigest(), app.py lines 31-32) -/

/-- Modulus of 32-bit words. -/
def w32 : Nat := 4294967296

/-- Rotate a 32-bit word right by n positions. -/
def rotr (x n : Nat) : Nat := ((x >>> n) ||| (x <<< (32 - n))) % w32

/-- Big sigma-0 of the SHA-256 compression function. -/
def bigS0 (x : Nat) : Nat := (rotr x 2) ^^^ (rotr x 13) ^^^ (rotr x 22)

/-- Big sigma-1 of the SHA-256 compression function. -/
def bigS1 (x : Nat) : Nat := (rotr x 6) ^^^ (rotr x 11) ^^^ (rotr x 25)

/-- Small sigma-0 of the SHA-256 message schedule. -/
def smallS0 (x : Nat) : Nat := (rotr x 7) ^^^ (rotr x 18) ^^^ (x >>> 3)

/-- Small sigma-1 of the SHA-256 message schedule. -/
def smallS1 (x : Nat) : Nat := (rotr x 17) ^^^ (rotr x 19) ^^^ (x >>> 10)

/-- The 64 SHA-256 round constants. -/
def K256 : List Nat :=
  [1116352408, 1899447441, 3049323471, 3921009573, 961987163, 1508970993,
   2453635748, 2870763221, 3624381080, 310598401, 607225278, 1426881987,
   1925078388, 2162078206, 2614888103, 3248222580, 3835390401, 4022224774,
   264347078, 604807628, 770255983, 1249150122, 1555081692, 1996064986,
   2554220882, 2821834349, 2952996808, 3210313671, 3336571891, 3584528711,
   113926993, 338241895, 666307205, 773529912, 1294757372, 1396182291,
   1695183700, 1986661051, 2177026350, 2456956037, 2730485921, 2820302411,
   3259730800, 3345764771, 3516065817, 3600352804, 4094571909, 275423344,
   430227734, 506948616, 659060556, 883997877, 958139571, 1322822218,
   1537002063, 1747873779, 1955562222, 2024104815, 2227730452, 2361852424,
   2428436474, 2756734187, 3204031479, 3329325298]

/-- The eight 32-bit working registers of SHA-256. -/
structure Hash8 where
  a : Nat
  b : Nat
  c : Nat
  d : Nat
  e : Nat
  f : Nat
  g : Nat
  h : Nat
deriving DecidableEq

/-- The SHA-256 initial hash value. -/
def H0 : Hash8 :=
  ⟨1779033703, 3144134277, 1013904242, 2773480762,
   1359893119, 2600822924, 528734635, 1541459225⟩

/-- Big-endian byte rendering of a value into a fixed number of bytes. -/
def toBytesBE : Nat → Nat → List Nat
  | 0, _ => []
  | k + 1, v => toBytesBE k (v / 256) ++ [v % 256]

/-- SHA-256 padding: append 0x80, zero bytes up to 56 mod 64, then the
bit length as 64-bit big-endian. -/
def padMsg (msg : List Nat) : List Nat :=
  msg ++ 128 :: List.replicate ((119 - msg.length % 64) % 64) 0 ++ toBytesBE 8 (8 * msg.length)

/-- Group bytes into big-endian 32-bit words. -/
def bytesToWords : List Nat → List Nat
  | a :: b :: c :: d :: rest => (((a * 256 + b) * 256 + c) * 256 + d) :: bytesToWords rest
  | _ => []

/-- Extend the 16-word block to the 64-word message schedule. -/
def scheduleExtend : List Nat → Nat → List Nat
  | w, 0 => w
  | w, k + 1 =>
    let n := w.length
    let t := (smallS1 (w.getD (n - 2) 0) + w.getD (n - 7) 0 +
              smallS0 (w.getD (n - 15) 0) + w.getD (n - 16) 0) % w32
    scheduleExtend (w ++ [t]) k

/-- One SHA-256 round on the eight registers. -/
def compress (st : Hash8) (kw : Nat × Nat) : Hash8 :=
  let S1 := bigS1 st.e
  let ch := (st.e &&& st.f) ^^^ ((st.e ^^^ 4294967295) &&& st.g)
  let temp1 := (st.h + S1 + ch + kw.1 + kw.2) % w32
  let S0 := bigS0 st.a
  let maj := (st.a &&& st.b) ^^^ (st.a &&& st.c) ^^^ (st.b &&& st.c)
  let temp2 := (S0 + maj) % w32
  { a := (temp1 + temp2) % w32, b := st.a, c := st.b, d := st.c,
    e := (st.d + temp1) % w32, f := st.e, g := st.f, h := st.g }

/-- Process one 64-byte block: 64 rounds, then add into the chaining value. -/
def processBlock (H : Hash8) (block : List Nat) : Hash8 :=
  let w := scheduleExtend (bytesToWords block) 48
  let st := (K256.zip w).foldl compress H
  { a := (H.a + st.a) % w32, b := (H.b + st.b) % w32, c := (H.c + st.c) % w32,
    d := (H.d + st.d) % w32, e := (H.e + st.e) % w32, f := (H.f + st.f) % w32,
    g := (H.g + st.g) % w32, h := (H.h + st.h) % w32 }

/-- Split a byte list into 64-byte chunks (fuel-recursive so the kernel can
evaluate it). -/
def chunksGo : Nat → List Nat → List (List Nat)
  | 0, _ => []
  | _, [] => []
  | fuel + 1, x :: xs => (x :: xs.take 63) :: chunksGo fuel (xs.drop 63)

/-- Split a byte list into 64-byte chunks. -/
def chunks64 (l : List Nat) : List (List Nat) := chunksGo l.length l

/-- The SHA-256 digest of a byte message, as eight 32-bit words. -/
def sha256Words (msg : List Nat) : List Nat :=
  let Hf := (chunks64 (padMsg msg)).foldl processBlock H0
  [Hf.a, Hf.b, Hf.c, Hf.d, Hf.e, Hf.f, Hf.g, Hf.h]

/-- Lowercase hex digit, as hexdigest() prints it. -/
def hexChar (n : Nat) : Char := if n < 10 then Char.ofNat (48 + n) else Char.ofNat (87 + n)

/-- Eight lowercase hex digits of a 32-bit word, most significant first. -/
def wordToHex (w : Nat) : List Char :=
  [hexChar ((w >>> 28) % 16), hexChar ((w >>> 24) % 16), hexChar ((w >>> 20) % 16),
   hexChar ((w >>> 16) % 16), hexChar ((w >>> 12) % 16), hexChar ((w >>> 8) % 16),
   hexChar ((w >>> 4) % 16), hexChar (w % 16)]

/-- The 64-character lowercase hex digest of a byte message. -/
def sha256hex (msg : List Nat) : String :=
  String.mk ((sha256Words msg).map wordToHex).flatten

/-- UTF-8 encoding of one character (pw.encode() in app.py line 32). -/
def encodeChar (c : Char) : List Nat :=
  let n := c.toNat
  if n < 128 then [n]
  else if n < 2048 then [192 + n / 64, 128 + n % 64]
  else if n < 65536 then [224 + n / 4096, 128 + (n / 64) % 64, 128 + n % 64]
  else [240 + n / 262144, 128 + (n / 4096) % 64, 128 + (n / 64) % 64, 128 + n % 64]

/-- UTF-8 bytes of a string. -/
def utf8Bytes (s : String) : List Nat := s.data.flatMap encodeChar

/-- Models hash_pw (app.py lines 31-32): the SHA-256 hex digest of the UTF-8
bytes of the password. -/
def hash_pw (pw : String) : String := sha256hex (utf8Bytes pw)

/-- Base-2^32 value of a word list, least significant word first (used to
count the possible digests). -/
def wordsToNat : List Nat → Nat
  | [] => 0
  | w :: ws => w + 4294967296 * wordsToNat ws

/-- Every register of a hash state is a 32-bit word. -/
def hash8Bounded (H : Hash8) : Prop :=
  H.a < w32 ∧ H.b < w32 ∧ H.c < w32 ∧ H.d < w32 ∧
  H.e < w32 ∧ H.f < w32 ∧ H.g < w32 ∧ H.h < w32

/-- One of two ASCII letters, selected by a bit. -/
def boolChar (b : Bool) : Char := if b then 'b' else 'a'

/-- A 257-character ASCII password built from a bit vector; there are more
of these than possible SHA-256 digests. -/
def stringOfBits (f : Fin 257 → Bool) : String := String.mk ((List.ofFn f).map boolChar)

/-- The digest of a bit-vector password, read as one number below 2^256. -/
def digestVal (f : Fin 257 → Bool) : Nat :=
  wordsToNat (sha256Words (utf8Bytes (stringOfBits f)))

/-! ## Credentials table and auth helpers (app.py lines 22-55) -/

/-- The users table (username TEXT PRIMARY KEY, password TEXT NOT NULL),
rows in insertion order. The stored password column holds the hash. -/
abbrev UsersTable := List (String × String)

/-- The authentication error taxonomy of the specification. -/
inductive AuthError where
  | InvalidInput : AuthError
  | DuplicateUser : AuthError
deriving DecidableEq

/-- Models check_credentials (app.py lines 34-36): SELECT password FROM users
WHERE username = ? fetches the first row whose username matches (at most one
exists under the PRIMARY KEY invariant); the result is bool(row and
row[0] == hash_pw(pw)). Total: an unknown username yields false, no error. -/
def check_credentials (u pw : String) (tbl : UsersTable) : Bool :=
  match tbl.find? (fun r => decide (r.1 = u)) with
  | some row => decide (row.2 = hash_pw pw)
  | none => false

/-- Models the Create-account handler of signup_page (app.py lines 47-55):
empty username or password is rejected first; then SELECT 1 FROM users WHERE
username = ? rejects a duplicate; otherwise the row (u, hash_pw p) is
inserted and committed. Returns the table after the click plus the error
surfaced, if any; on an error the table is returned unchanged. -/
def signupClick (u p : String) (tbl : UsersTable) : UsersTable × Option AuthError :=
  if u = "" ∨ p = "" then (tbl, some AuthError.InvalidInput)
  else if tbl.any (fun r => decide (r.1 = u)) then (tbl, some AuthError.DuplicateUser)
  else (tbl ++ [(u, hash_pw p)], none)

/-! ## Session state machine (app.py lines 57-96) -/

/-- Session state: st.session_state.logged_in and st.session_state.user
(initialised at lines 72-74). -/
structure Session where
  logged_in : Bool
  user : Option String
deriving DecidableEq

/-- The initial session state (app.py lines 72-74). -/
def initialSession : Session := { logged_in := false, user := none }

/-- One user interaction driving a Streamlit rerun of the script. -/
inductive Event where
  | login (u p : String) : Event
  | signup (u p : String) : Event
  | logout : Event
  | tableAct (table action : String) : Event
deriving DecidableEq

/-- The result of one top-to-bottom rerun of the script: the session and
users table afterwards, and whether the table-action dispatch (sections 7-11
of app.py, the CrudEngine / SchemaIntrospector operations) was reached. -/
structure RunOutcome where
  session : Session
  users : UsersTable
  crudReached : Bool
deriving DecidableEq

/-- Models one rerun of the script body (app.py lines 72-96). While not
logged in, the guard (line 77) renders only the auth pages and st.stop()
(line 84) halts before any table action: a login click with valid
credentials sets logged_in and user (lines 64-66), a signup click runs the
Create-account handler, anything else leaves the state alone. While logged
in, the Log Out button clears only logged_in and stops (lines 88-90), and a
table action reaches the dispatch. -/
def appStep (s : Session) (users : UsersTable) (ev : Event) : RunOutcome :=
  if s.logged_in then
    match ev with
    | Event.logout => { session := { s with logged_in := false }, users := users, crudReached := false }
    | Event.tableAct _ _ => { session := s, users := users, crudReached := true }
    | _ => { session := s, users := users, crudReached := false }
  else
    match ev with
    | Event.login u p =>
        if check_credentials u p users
        then { session := { logged_in := true, user := some u }, users := users, crudReached := false }
        else { session := s, users := users, crudReached := false }
    | Event.signup u p => { session := s, users := (signupClick u p users).1, crudReached := false }
    | _ => { session := s, users := users, crudReached := false }

/-! ## Generic CRUD over a table (app.py lines 92-191) -/

/-- The CRUD error taxonomy of the specification. -/
inductive CrudError where
  | MissingField : CrudError
  | UnknownColumn : CrudError
  | UnknownTable : CrudError
  | NotFound : CrudError
deriving DecidableEq

/-- The four recognized table names (app.py line 94). -/
def tables : List String := ["establishment", "employee", "inspection", "violation"]

/-- A table as read by SELECT * (app.py lines 130, 137): ordered column
names and rows in storage order, over a generic value type. -/
structure DataTable (α : Type) where
  cols : List String
  rows : List (List α)
deriving DecidableEq

/-- Models the Read action (app.py lines 128-131): SELECT * with no
filtering, rows in storage order. -/
def readAll {α : Type} (t : DataTable α) : List (List α) := t.rows

/-- The primary key convention pk = df.columns[0] (app.py line 138). -/
def pkCol {α : Type} (t : DataTable α) : String := t.cols.headD ""

/-- The non-primary-key columns, as iterated by the Create and Update forms
(app.py lines 143-144, 166-167: every column with col == pk skipped). -/
def nonPkCols {α : Type} (t : DataTable α) : List String :=
  t.cols.filter (fun c => decide (¬ c = pkCol t))

/-- Python str.join with separator between consecutive elements. -/
def joinComma : List String → String
  | [] => ""
  | [c] => c
  | c :: rest => c ++ ", " ++ joinComma rest

/-- The INSERT statement the Create block builds (app.py lines 151-157):
text from the column names only, values passed as the positional
parameter tuple. -/
def insertStmt {α : Type} (table : String) (colNames : List String) (vals : List α) :
    String × List α :=
  ("INSERT INTO " ++ table ++ " (" ++ joinComma colNames ++ ") VALUES (" ++
     joinComma (colNames.map (fun _ => "?")) ++ ")", vals)

/-- The UPDATE statement the Update block builds (app.py lines 174-179):
SET clause from the non-pk column names, WHERE on the pk column, values and
the chosen key as positional parameters. -/
def updateStmt {α : Type} (table pk : String) (colNames : List String) (vals : List α)
    (rid : α) : String × List α :=
  ("UPDATE " ++ table ++ " SET " ++ joinComma (colNames.map (fun c => c ++ "=?")) ++
     " WHERE " ++ pk ++ " = ?", vals ++ [rid])

/-- The DELETE statement the Delete block builds (app.py lines 187-189). -/
def deleteStmt {α : Type} (table pk : String) (rid : α) : String × List α :=
  ("DELETE FROM " ++ table ++ " WHERE " ++ pk ++ " = ?", [rid])

/-- The lookup statement of check_credentials (app.py line 35). -/
def selectPasswordStmt (u : String) : String × List String :=
  ("SELECT password FROM users WHERE username = ?", [u])

/-- The duplicate-check statement of signup_page (app.py line 50). -/
def selectUserStmt (u : String) : String × List String :=
  ("SELECT 1 FROM users WHERE username = ?", [u])

/-- The insert statement of signup_page (app.py line 53). -/
def insertUserStmt (u p : String) : String × List String :=
  ("INSERT INTO users(username,password) VALUES(?,?)", [u, hash_pw p])

/-- Models the Update action block (app.py lines 161-181). The block first
re-reads the target row (record = df[df[pk] == rid].iloc[0], line 164),
which fails when no row has the chosen value in the first column: that
failure is the NotFound error. Otherwise executing the UPDATE statement
(lines 176-179) sets every non-pk column of each row whose first field
equals rid, leaving all other rows untouched. -/
def updateAction {α : Type} [DecidableEq α] (t : DataTable α) (rid : α) (vals : List α) :
    Except CrudError (DataTable α) :=
  if t.rows.any (fun r => decide (r.head? = some rid)) then
    Except.ok { t with rows := t.rows.map (fun r => if r.head? = some rid then rid :: vals else r) }
  else Except.error CrudError.NotFound

/-- Models the Delete action block (app.py lines 183-191): executing DELETE
FROM table WHERE pk = rid removes every row whose first field equals rid and
performs no existence check, so it is total. -/
def deleteAction {α : Type} [DecidableEq α] (t : DataTable α) (rid : α) : DataTable α :=
  { t with rows := t.rows.filter (fun r => decide (¬ r.head? = some rid)) }

/-- Models the Create action block (app.py lines 140-159): the INSERT names
only the non-pk columns, so the store fills the primary key by its own
default mechanism, modelled by the assignment function of the store; the new
row lands at the end of storage order. -/
def createAction {α : Type} (assign : List (List α) → α) (t : DataTable α) (vals : List α) :
    DataTable α :=
  { t with rows := t.rows ++ [assign t.rows :: vals] }

/-- Statement text of the Update block as wired by the app: the WHERE column
is pk = df.columns[0] (app.py lines 138, 177). -/
def appUpdateStmtText {α : Type} (table : String) (t : DataTable α) (vals : List α)
    (rid : α) : String :=
  (updateStmt table (pkCol t) (nonPkCols t) vals rid).1

/-- Statement text of the Delete block as wired by the app: the WHERE column
is pk = df.columns[0] (app.py lines 138, 188). -/
def appDeleteStmtText {α : Type} (table : String) (t : DataTable α) (rid : α) : String :=
  (deleteStmt table (pkCol t) rid).1

/-- A concrete two-column table used by witnesses. -/
def demoTable : DataTable Nat := { cols := ["id", "score"], rows := [[1, 5], [2, 6]] }

/-- A concrete store-side primary-key assignment used by witnesses. -/
def demoAssign : List (List Nat) → Nat := fun _ => 3

/-! ## Helper lemmas -/

/-- Unfolding of check_credentials over a cons cell. -/
theorem check_credentials_cons (u p : String) (hd : String × String) (tl : UsersTable) :
    check_credentials u p (hd :: tl) =
      if hd.1 = u then decide (hd.2 = hash_pw p) else check_credentials u p tl := by
  by_cases h : hd.1 = u
  · simp [check_credentials, List.find?_cons_of_pos, h]
  · simp [check_credentials, List.find?_cons_of_neg, h]

/-- Looking up a user just appended to a table that did not contain it. -/
theorem check_credentials_append_fresh (u r hsh : String) (tbl : UsersTable)
    (hfresh : ∀ x ∈ tbl, ¬ x.1 = u) :
    check_credentials u r (tbl ++ [(u, hsh)]) = decide (hsh = hash_pw r) := by
  induction tbl with
  | nil => simp [check_credentials_cons]
  | cons hd tl ih =>
    have hne : ¬ hd.1 = u := hfresh hd (List.mem_cons_self hd tl)
    rw [List.cons_append, check_credentials_cons, if_neg hne]
    exact ih (fun x hx => hfresh x (List.mem_cons_of_mem hd hx))

/-- Characterisation of a successful signup click. -/
theorem signupClick_ok (u p : String) (tbl tbl' : UsersTable)
    (hreg : signupClick u p tbl = (tbl', none)) :
    ¬ u = "" ∧ ¬ p = "" ∧ (∀ x ∈ tbl, ¬ x.1 = u) ∧ tbl' = tbl ++ [(u, hash_pw p)] := by
  unfold signupClick at hreg
  by_cases h1 : u = "" ∨ p = ""
  · rw [if_pos h1] at hreg
    exact absurd (congrArg Prod.snd hreg) (by simp)
  · rw [if_neg h1] at hreg
    by_cases h2 : tbl.any (fun r => decide (r.1 = u)) = true
    · rw [if_pos h2] at hreg
      exact absurd (congrArg Prod.snd hreg) (by simp)
    · rw [if_neg h2] at hreg
      push_neg at h1
      refine ⟨h1.1, h1.2, ?_, (congrArg Prod.fst hreg).symm⟩
      intro x hx hxu
      exact h2 (List.any_eq_true.mpr ⟨x, hx, by simp [hxu]⟩)

/-- FIPS 180-4 test vector: the digest of the empty message, kernel-checked
against the embedding. -/
theorem hash_pw_empty_vector :
    hash_pw "" = "e3b0c44298fc1c149afbf4c8996fb92427ae41e4649b934ca495991b7852b855" := by
  decide

/-- FIPS 180-4 test vector: the digest of the three-byte message abc,
kernel-checked against the embedding. -/
theorem hash_pw_abc_vector :
    hash_pw "abc" = "ba7816bf8f01cfea414140de5dae2223b00361a396177a9cb410ff61f20015ad" := by
  decide

/-- Every register produced by a block step is reduced mod 2^32. -/
theorem processBlock_bounded (H : Hash8) (blk : List Nat) : hash8Bounded (processBlock H blk) := by
  have hpos : 0 < w32 := by norm_num [w32]
  simp only [hash8Bounded, processBlock]
  exact ⟨Nat.mod_lt _ hpos, Nat.mod_lt _ hpos, Nat.mod_lt _ hpos, Nat.mod_lt _ hpos,
    Nat.mod_lt _ hpos, Nat.mod_lt _ hpos, Nat.mod_lt _ hpos, Nat.mod_lt _ hpos⟩

/-- Folding block steps preserves the word bounds. -/
theorem foldl_processBlock_bounded (bs : List (List Nat)) (H : Hash8)
    (hH : hash8Bounded H) : hash8Bounded (bs.foldl processBlock H) := by
  induction bs generalizing H with
  | nil => exact hH
  | cons b bs ih =>
    rw [List.foldl_cons]
    exact ih (processBlock H b) (processBlock_bounded H b)

/-- The initial hash value is made of 32-bit words. -/
theorem H0_bounded : hash8Bounded H0 := by
  simp only [hash8Bounded, H0]
  refine ⟨?_, ?_, ?_, ?_, ?_, ?_, ?_, ?_⟩ <;> norm_num [w32]

/-- A digest has eight words. -/
theorem sha256Words_length (m : List Nat) : (sha256Words m).length = 8 := rfl

/-- Every digest word is a 32-bit word. -/
theorem sha256Words_bounded (m : List Nat) : ∀ x ∈ sha256Words m, x < w32 := by
  obtain ⟨h1, h2, h3, h4, h5, h6, h7, h8⟩ :=
    foldl_processBlock_bounded (chunks64 (padMsg m)) H0 H0_bounded
  intro x hx
  simp only [sha256Words, List.mem_cons, List.not_mem_nil, or_false] at hx
  rcases hx with rfl | rfl | rfl | rfl | rfl | rfl | rfl | rfl <;> assumption

/-- The base-2^32 value of a list of 32-bit words is below 2^32 to its
length. -/
theorem wordsToNat_lt (l : List Nat) (hb : ∀ x ∈ l, x < w32) :
    wordsToNat l < w32 ^ l.length := by
  induction l with
  | nil => simp [wordsToNat]
  | cons w ws ih =>
    have hw : w < 4294967296 := hb w (List.mem_cons_self w ws)
    have hws : wordsToNat ws < w32 ^ ws.length :=
      ih (fun x hx => hb x (List.mem_cons_of_mem w hx))
    have hsucc : wordsToNat ws + 1 ≤ w32 ^ ws.length := Nat.succ_le_of_lt hws
    calc wordsToNat (w :: ws) = w + 4294967296 * wordsToNat ws := rfl
      _ < 4294967296 * (wordsToNat ws + 1) := by omega
      _ ≤ 4294967296 * w32 ^ ws.length := Nat.mul_le_mul_left 4294967296 hsucc
      _ = w32 ^ (ws.length + 1) := (pow_succ' w32 ws.length).symm
      _ = w32 ^ (w :: ws).length := by rw [List.length_cons]

/-- Base-2^32 valuation is injective on equal-length lists of 32-bit
words. -/
theorem wordsToNat_inj (l1 l2 : List Nat) (hlen : l1.length = l2.length)
    (hb1 : ∀ x ∈ l1, x < w32) (hb2 : ∀ x ∈ l2, x < w32)
    (heq : wordsToNat l1 = wordsToNat l2) : l1 = l2 := by
  induction l1 generalizing l2 with
  | nil =>
    cases l2 with
    | nil => rfl
    | cons b bs => simp at hlen
  | cons a as ih =>
    cases l2 with
    | nil => simp at hlen
    | cons b bs =>
      have ha : a < 4294967296 := hb1 a (List.mem_cons_self a as)
      have hb : b < 4294967296 := hb2 b (List.mem_cons_self b bs)
      have heq' : a + 4294967296 * wordsToNat as = b + 4294967296 * wordsToNat bs := heq
      have hab : a = b := by omega
      have hws : wordsToNat as = wordsToNat bs := by omega
      subst hab
      rw [ih bs (by simpa using hlen) (fun x hx => hb1 x (List.mem_cons_of_mem a hx))
        (fun x hx => hb2 x (List.mem_cons_of_mem a hx)) hws]

/-- The two letter characters are distinct. -/
theorem boolChar_injective : Function.Injective boolChar := by
  intro a b h
  cases a <;> cases b <;> revert h <;> decide

/-- Distinct bit vectors give distinct passwords. -/
theorem stringOfBits_injective : Function.Injective stringOfBits := by
  intro f g h
  simp only [stringOfBits] at h
  have h2 : (List.ofFn f).map boolChar = (List.ofFn g).map boolChar :=
    List.asString_inj.mp h
  exact List.ofFn_injective (List.map_injective_iff.mpr boolChar_injective h2)

/-- The pigeonhole passwords are nonempty. -/
theorem stringOfBits_ne_empty (f : Fin 257 → Bool) : ¬ stringOfBits f = "" := by
  intro h
  have h1 : (stringOfBits f).length = ("" : String).length := congrArg String.length h
  rw [stringOfBits] at h1
  rw [show ("" : String).length = 0 from rfl] at h1
  rw [show (String.mk ((List.ofFn f).map boolChar)).length =
      ((List.ofFn f).map boolChar).length from rfl] at h1
  simp only [List.length_map, List.length_ofFn] at h1
  exact absurd h1 (by decide)

/-- The digest value of a bit-vector password is below 2^256. -/
theorem digestVal_lt (f : Fin 257 → Bool) : digestVal f < 2 ^ 256 := by
  have h := wordsToNat_lt (sha256Words (utf8Bytes (stringOfBits f)))
    (sha256Words_bounded (utf8Bytes (stringOfBits f)))
  rw [sha256Words_length] at h
  exact lt_of_lt_of_eq h (by norm_num [w32])

/-- By counting, two distinct nonempty passwords share one SHA-256 hex
digest: there are 2^257 bit-vector passwords and at most 2^256 digests. -/
theorem hash_pw_collision :
    ∃ p q : String, ¬ p = q ∧ ¬ p = "" ∧ ¬ q = "" ∧ hash_pw p = hash_pw q := by
  have hcard : Fintype.card (Fin (2 ^ 256)) < Fintype.card (Fin 257 → Bool) := by
    rw [Fintype.card_fun, Fintype.card_fin, Fintype.card_fin, Fintype.card_bool]
    exact Nat.pow_lt_pow_right (by norm_num) (by norm_num)
  obtain ⟨f, g, hfg, heq⟩ := Fintype.exists_ne_map_eq_of_card_lt
    (fun f : Fin 257 → Bool => (⟨digestVal f, digestVal_lt f⟩ : Fin (2 ^ 256)))
    hcard
  simp only [Fin.mk.injEq, digestVal] at heq
  have hwords : sha256Words (utf8Bytes (stringOfBits f)) =
      sha256Words (utf8Bytes (stringOfBits g)) :=
    wordsToNat_inj _ _ (by rw [sha256Words_length, sha256Words_length])
      (sha256Words_bounded _) (sha256Words_bounded _) heq
  refine ⟨stringOfBits f, stringOfBits g, ?_, stringOfBits_ne_empty f,
    stringOfBits_ne_empty g, ?_⟩
  · intro h
    exact hfg (stringOfBits_injective h)
  · simp only [hash_pw, sha256hex, hwords]

/-! ## Claims -/

/-- C1 (counterexample): with the username alice already in the table and an
empty password, the code reports InvalidInput, not DuplicateUser as the
claim, read as stated, requires. -/
theorem c1_counterexample :
    (("alice", "h1") ∈ ([("alice", "h1")] : UsersTable)) ∧
    (signupClick "alice" "" [("alice", "h1")]).2 = some AuthError.InvalidInput ∧
    ¬ (signupClick "alice" "" [("alice", "h1")]).2 = some AuthError.DuplicateUser := by
  refine ⟨by simp, rfl, by simp [signupClick]⟩

/-- C1 (amended): register fails with InvalidInput when username or password
is empty; otherwise it fails with DuplicateUser when the username already
exists; otherwise it inserts (username, hash_pw password) and commits; on
either error the credentials table is unchanged. -/
theorem c1_register_spec (u p : String) (tbl : UsersTable) :
    ((u = "" ∨ p = "") → signupClick u p tbl = (tbl, some AuthError.InvalidInput)) ∧
    (¬ u = "" → ¬ p = "" → (∃ hsh, (u, hsh) ∈ tbl) →
      signupClick u p tbl = (tbl, some AuthError.DuplicateUser)) ∧
    (¬ u = "" → ¬ p = "" → (¬ ∃ hsh, (u, hsh) ∈ tbl) →
      signupClick u p tbl = (tbl ++ [(u, hash_pw p)], none)) := by
  refine ⟨?_, ?_, ?_⟩
  · intro h
    rw [signupClick, if_pos h]
  · rintro hu hp ⟨hsh, hmem⟩
    rw [signupClick, if_neg (by simp [hu, hp]),
      if_pos (List.any_eq_true.mpr ⟨(u, hsh), hmem, by simp⟩)]
  · intro hu hp hnone
    rw [signupClick, if_neg (by simp [hu, hp]), if_neg]
    simp only [List.any_eq_true, decide_eq_true_eq]
    rintro ⟨r, hr, hru⟩
    exact hnone ⟨r.2, by rw [← hru]; exact hr⟩

/-- C1 (witness): a fresh nonempty signup inserts the hashed row. -/
theorem c1_register_spec_witness :
    signupClick "bob" "pw" [("alice", "h1")] = ([("alice", "h1"), ("bob", hash_pw "pw")], none) :=
  (c1_register_spec "bob" "pw" [("alice", "h1")]).2.2 (by decide) (by decide) (by
    rintro ⟨hsh, hmem⟩
    rw [List.mem_singleton, Prod.mk.injEq] at hmem
    exact absurd hmem.1 (by decide))

/-- C2: under the username-uniqueness invariant the users table carries
(username is its SQL primary key), check_credentials u p returns true iff a
row for u exists whose stored hash is hash_pw p; it is a total function, so
an unknown username yields false rather than an error. -/
theorem c2_verify_iff (u p : String) (tbl : UsersTable)
    (huniq : tbl.Pairwise (fun r s => ¬ r.1 = s.1)) :
    check_credentials u p tbl = true ↔ (u, hash_pw p) ∈ tbl := by
  induction tbl with
  | nil => simp [check_credentials]
  | cons hd tl ih =>
    rw [List.pairwise_cons] at huniq
    rw [check_credentials_cons]
    by_cases h : hd.1 = u
    · rw [if_pos h]
      simp only [decide_eq_true_eq, List.mem_cons]
      constructor
      · intro h2
        left
        obtain ⟨h1, hh2⟩ := hd
        simp only at h h2
        rw [h, h2]
      · rintro (h2 | h2)
        · rw [← h2]
        · exact absurd h (huniq.1 (u, hash_pw p) h2)
    · rw [if_neg h]
      rw [ih huniq.2]
      constructor
      · exact fun h2 => List.mem_cons_of_mem hd h2
      · intro h2
        rcases List.mem_cons.mp h2 with h3 | h3
        · exact absurd (congrArg Prod.fst h3).symm h
        · exact h3

/-- C2 (witness): the characterisation at a concrete two-user table. -/
theorem c2_verify_iff_witness :
    check_credentials "alice" "secret123" [("alice", "x"), ("bob", "y")] = true ↔
      ("alice", hash_pw "secret123") ∈ ([("alice", "x"), ("bob", "y")] : UsersTable) :=
  c2_verify_iff "alice" "secret123" [("alice", "x"), ("bob", "y")]
    (by simp [List.pairwise_cons])

/-- C3 (amended): immediately after a successful register(u, p), verify(u, p)
returns true, and verify(u, q) returns false for any q whose hash differs
from the hash of p (passwords whose SHA-256 digests collide are accepted
interchangeably, so the claim as stated, quantified over all q different
from p, fails; see the counterexample). -/
theorem c3_register_then_verify (u p q : String) (tbl tbl' : UsersTable)
    (hreg : signupClick u p tbl = (tbl', none)) :
    check_credentials u p tbl' = true ∧
    (¬ hash_pw q = hash_pw p → check_credentials u q tbl' = false) := by
  obtain ⟨hu, hp, hfresh, htbl⟩ := signupClick_ok u p tbl tbl' hreg
  subst htbl
  constructor
  · rw [check_credentials_append_fresh u p _ tbl hfresh]
    simp
  · intro hne
    rw [check_credentials_append_fresh u q _ tbl hfresh]
    exact decide_eq_false (fun he => hne he.symm)

/-- C3 (witness): after registering alice with password pw, verification
succeeds with pw and fails with qw, whose hash differs. -/
theorem c3_register_then_verify_witness :
    check_credentials "alice" "pw" [("alice", hash_pw "pw")] = true ∧
    check_credentials "alice" "qw" [("alice", hash_pw "pw")] = false := by
  have h := c3_register_then_verify "alice" "pw" "qw" [] [("alice", hash_pw "pw")] rfl
  exact ⟨h.1, h.2 (by decide)⟩


/-- C3 (counterexample): the claim as stated fails on the code: SHA-256 has
colliding passwords (by counting there are more 257-letter passwords than
digests), and after registering with one of a colliding pair, verification
also accepts the other, distinct password. -/
theorem c3_counterexample :
    ¬ (∀ (u p q : String) (tbl tbl' : UsersTable),
        signupClick u p tbl = (tbl', none) →
        check_credentials u p tbl' = true ∧
          (¬ q = p → check_credentials u q tbl' = false)) := by
  intro hclaim
  obtain ⟨p, q, hpq, hp0, hq0, hcol⟩ := hash_pw_collision
  have hreg : signupClick "alice" p [] = ([("alice", hash_pw p)], none) := by
    rw [signupClick, if_neg (by push_neg; exact ⟨by decide, hp0⟩), if_neg (by simp)]
    rfl
  have h := hclaim "alice" p q [] [("alice", hash_pw p)] hreg
  have hfalse := h.2 (fun hq => hpq hq.symm)
  have htrue : check_credentials "alice" q [("alice", hash_pw p)] = true := by
    rw [show ([("alice", hash_pw p)] : UsersTable) = [] ++ [("alice", hash_pw p)] from rfl,
      check_credentials_append_fresh "alice" q (hash_pw p) [] (by simp)]
    simp [hcol]
  rw [htrue] at hfalse
  exact Bool.noConfusion hfalse

/-- C4: the Update action fails with NotFound when no row has the chosen
value in the primary-key (first) column; otherwise it succeeds and a
subsequent read_all shows each matching row replaced by the key followed by
exactly the supplied non-pk values, with every other row unmodified in
place. -/
theorem c4_update_spec {α : Type} [DecidableEq α] (t : DataTable α) (rid : α) (vals : List α) :
    ((∀ r ∈ t.rows, ¬ r.head? = some rid) →
      updateAction t rid vals = Except.error CrudError.NotFound) ∧
    ((∃ r ∈ t.rows, r.head? = some rid) →
      ∃ t', updateAction t rid vals = Except.ok t' ∧
        t'.cols = t.cols ∧
        (rid :: vals) ∈ readAll t' ∧
        (readAll t').length = (readAll t).length ∧
        (∀ (i : Nat) (r : List α), (readAll t)[i]? = some r →
          (r.head? = some rid → (readAll t')[i]? = some (rid :: vals)) ∧
          (¬ r.head? = some rid → (readAll t')[i]? = some r))) := by
  constructor
  · intro hnone
    rw [updateAction, if_neg]
    simp only [List.any_eq_true, decide_eq_true_eq]
    rintro ⟨r, hr, hrid⟩
    exact hnone r hr hrid
  · rintro ⟨r0, hr0, hrid0⟩
    rw [updateAction, if_pos (List.any_eq_true.mpr ⟨r0, hr0, by simp [hrid0]⟩)]
    refine ⟨_, rfl, rfl, ?_, by simp [readAll], ?_⟩
    · exact List.mem_map.mpr ⟨r0, hr0, by simp [hrid0]⟩
    · intro i r hir
      simp only [readAll] at hir ⊢
      rw [List.getElem?_map, hir, Option.map_some']
      constructor
      · intro hr
        rw [if_pos hr]
      · intro hr
        rw [if_neg hr]

/-- C4 (witness): updating a key absent from the demo table reports
NotFound. -/
theorem c4_update_spec_witness :
    updateAction demoTable 99 [9] = Except.error CrudError.NotFound :=
  (c4_update_spec demoTable 99 [9]).1 (by decide)

/-- C5: the Delete action performs no existence check: it is a total
function (so deleting a nonexistent key and deleting twice both succeed
silently), it is idempotent, after it read_all holds no row with the chosen
key in the primary-key column, and when no row matched the table is
returned unchanged. -/
theorem c5_delete_spec {α : Type} [DecidableEq α] (t : DataTable α) (rid : α) :
    deleteAction (deleteAction t rid) rid = deleteAction t rid ∧
    (∀ r ∈ readAll (deleteAction t rid), ¬ r.head? = some rid) ∧
    ((∀ r ∈ t.rows, ¬ r.head? = some rid) → deleteAction t rid = t) := by
  refine ⟨?_, ?_, ?_⟩
  · simp only [deleteAction]
    congr 1
    exact List.filter_eq_self.mpr (fun a ha => (List.mem_filter.mp ha).2)
  · intro r hr
    have h := (List.mem_filter.mp hr).2
    simpa using h
  · intro hall
    have hrows : t.rows.filter (fun r => decide (¬ r.head? = some rid)) = t.rows :=
      List.filter_eq_self.mpr (fun a ha => by simpa using hall a ha)
    simp only [deleteAction, hrows]

/-- C5 (witness): deleting the absent key 7 from the demo table leaves it
unchanged. -/
theorem c5_delete_spec_witness :
    deleteAction demoTable 7 = demoTable :=
  (c5_delete_spec demoTable 7).2.2 (by decide)

/-- C6: a successful create whose field values cover every non-pk column,
followed by read_all, yields the old rows plus one new row whose non-pk
fields are exactly the supplied values and whose primary key is produced by
the store-side assignment (the engine passes no pk, see the insert
statement) and differs from the key of every existing row whenever the
store assigns a fresh value. -/
theorem c6_create_roundtrip {α : Type} (assign : List (List α) → α)
    (t : DataTable α) (vals : List α)
    (hcover : vals.length + 1 = t.cols.length)
    (hfresh : ∀ r ∈ t.rows, ¬ r.head? = some (assign t.rows)) :
    readAll (createAction assign t vals) = readAll t ++ [assign t.rows :: vals] ∧
    (assign t.rows :: vals).length = t.cols.length ∧
    List.drop 1 (assign t.rows :: vals) = vals ∧
    (assign t.rows :: vals).head? = some (assign t.rows) ∧
    (∀ r ∈ readAll t, ¬ r.head? = (assign t.rows :: vals).head?) := by
  refine ⟨rfl, by simpa using hcover, rfl, rfl, ?_⟩
  intro r hr
  simpa using hfresh r hr

/-- C6 (witness): creating [7] in the demo table with store key 3 appends
the row 3 :: [7]. -/
theorem c6_create_roundtrip_witness :
    readAll (createAction demoAssign demoTable [7]) =
      readAll demoTable ++ [demoAssign demoTable.rows :: [7]] :=
  (c6_create_roundtrip demoAssign demoTable [7] (by decide) (by decide)).1

/-- C7: for the CRUD statements and the credential statements, the SQL text
built is identical for any two assignments of field values (and of the
selected key); the values appear only in the positional parameter list,
exactly as supplied. -/
theorem c7_sql_text_invariant {α : Type} (table pk : String) (colNames : List String)
    (vals vals' : List α) (rid rid' : α) (u u' p p' : String) :
    (insertStmt table colNames vals).1 = (insertStmt table colNames vals').1 ∧
    (insertStmt table colNames vals).2 = vals ∧
    (updateStmt table pk colNames vals rid).1 = (updateStmt table pk colNames vals' rid').1 ∧
    (updateStmt table pk colNames vals rid).2 = vals ++ [rid] ∧
    (deleteStmt table pk rid).1 = (deleteStmt table pk rid').1 ∧
    (deleteStmt table pk rid).2 = [rid] ∧
    (selectPasswordStmt u).1 = (selectPasswordStmt u').1 ∧
    (selectUserStmt u).1 = (selectUserStmt u').1 ∧
    (insertUserStmt u p).1 = (insertUserStmt u' p').1 ∧
    (insertUserStmt u p).2 = [u, hash_pw p] :=
  ⟨rfl, rfl, rfl, rfl, rfl, rfl, rfl, rfl, rfl, rfl⟩

/-- C8: the session starts anonymous; from an anonymous session a rerun ends
authenticated exactly when its event is a login with valid credentials, and
then the session user is that username; logout returns an authenticated
session to unauthenticated; and no rerun from an anonymous session reaches
the table-action (CrudEngine / SchemaIntrospector) dispatch. -/
theorem c8_session_machine (s : Session) (users : UsersTable) (ev : Event) :
    initialSession.logged_in = false ∧
    (¬ s.logged_in = true →
      ((appStep s users ev).session.logged_in = true ↔
        ∃ u p, ev = Event.login u p ∧ check_credentials u p users = true ∧
          (appStep s users ev).session.user = some u)) ∧
    (s.logged_in = true → (appStep s users Event.logout).session.logged_in = false) ∧
    (¬ s.logged_in = true → (appStep s users ev).crudReached = false) := by
  have hsplit : ∀ b : Bool, ¬ b = true → b = false := by decide
  refine ⟨rfl, ?_, ?_, ?_⟩
  · intro hanon
    have hs : s.logged_in = false := hsplit _ hanon
    cases ev with
    | login u p =>
      by_cases hc : check_credentials u p users = true
      · constructor
        · intro _
          exact ⟨u, p, rfl, hc, by simp [appStep, hs, hc]⟩
        · intro _
          simp [appStep, hs, hc]
      · constructor
        · intro habs
          simp [appStep, hs, hc] at habs
        · rintro ⟨u', p', hev, hchk, _⟩
          cases hev
          exact absurd hchk hc
    | signup u p =>
      constructor
      · intro habs
        simp [appStep, hs] at habs
      · rintro ⟨u', p', hev, _, _⟩
        exact Event.noConfusion hev
    | logout =>
      constructor
      · intro habs
        simp [appStep, hs] at habs
      · rintro ⟨u', p', hev, _, _⟩
        exact Event.noConfusion hev
    | tableAct a b =>
      constructor
      · intro habs
        simp [appStep, hs] at habs
      · rintro ⟨u', p', hev, _, _⟩
        exact Event.noConfusion hev
  · intro hauth
    simp [appStep, hauth]
  · intro hanon
    have hs : s.logged_in = false := hsplit _ hanon
    cases ev with
    | login u p =>
      by_cases hc : check_credentials u p users = true
      · simp [appStep, hs, hc]
      · simp [appStep, hs, hc]
    | signup u p => simp [appStep, hs]
    | logout => simp [appStep, hs]
    | tableAct a b => simp [appStep, hs]

/-- C8 (witness): the initial session is anonymous and a table action from
it does not reach the dispatch. -/
theorem c8_session_machine_witness :
    initialSession.logged_in = false ∧
    (appStep initialSession [] (Event.tableAct "employee" "Read")).crudReached = false :=
  ⟨(c8_session_machine initialSession [] (Event.tableAct "employee" "Read")).1,
   (c8_session_machine initialSession [] (Event.tableAct "employee" "Read")).2.2.2 (by decide)⟩

/-- C9: for every recognized table, the primary key the Update and Delete
statements filter on is the first column of the table in declared order
(pk = df.columns[0]); no store-side primary-key metadata enters the model,
so this holds regardless of the store constraint. -/
theorem c9_pk_first_column {α : Type} (table : String) (t : DataTable α)
    (vals : List α) (rid : α) (_htab : table ∈ tables) :
    pkCol t = t.cols.headD "" ∧
    appDeleteStmtText table t rid =
      "DELETE FROM " ++ table ++ " WHERE " ++ t.cols.headD "" ++ " = ?" ∧
    appUpdateStmtText table t vals rid =
      "UPDATE " ++ table ++ " SET " ++
        joinComma ((nonPkCols t).map (fun c => c ++ "=?")) ++
        " WHERE " ++ t.cols.headD "" ++ " = ?" :=
  ⟨rfl, rfl, rfl⟩

/-- C9 (witness): the delete statement for the employee table filters on the
demo table's first column. -/
theorem c9_pk_first_column_witness :
    appDeleteStmtText "employee" demoTable 2 =
      "DELETE FROM " ++ "employee" ++ " WHERE " ++ demoTable.cols.headD "" ++ " = ?" :=
  (c9_pk_first_column "employee" demoTable [9] 2 (by decide)).2.1

/-- C10: the Log Out handler clears only the authenticated flag: after a
logout following a successful login as u, the session is unauthenticated
but its stored user field still holds u. -/
theorem c10_logout_keeps_user (s : Session) (users : UsersTable) (u : String)
    (hauth : s.logged_in = true) (huser : s.user = some u) :
    (appStep s users Event.logout).session.logged_in = false ∧
    (appStep s users Event.logout).session.user = some u := by
  constructor
  · simp [appStep, hauth]
  · simp [appStep, hauth, huser]

/-- C10 (witness): logging out the session of alice keeps user = alice while
clearing the flag. -/
theorem c10_logout_keeps_user_witness :
    (appStep { logged_in := true, user := some "alice" } [] Event.logout).session.logged_in = false ∧
    (appStep { logged_in := true, user := some "alice" } [] Event.logout).session.user = some "alice" :=
  c10_logout_keeps_user { logged_in := true, user := some "alice" } [] "alice" rfl rfl

end InspectionsApp
